import Mathlib

/-!
Shallow embedding of the genetic-algorithm library
(src/libs/genetic-algorithm/src/lib.rs).

Genes (`f32` in the source) are modelled as rationals.  The injected
random source (`&mut dyn RngCore`) is modelled as a stream of uniform
draws in [0,1) together with a current position; every primitive draw
(`gen_bool p`, `gen::<f32>()`, the uniform draw inside
`choose_weighted`) consumes one stream element.  Panics (`assert!`,
`expect`) are modelled as `Except.error` carrying the panic message, so
a function that panics returns no result.
-/

/-- The random source: a stream of uniform draws in [0,1) plus the
position of the next draw.  Mirrors a seeded `RngCore`. -/
structure Rng where
  stream : Nat → ℚ
  pos : Nat

/-- Draw one uniform value from the source and advance it. -/
def Rng.next (r : Rng) : ℚ × Rng :=
  (r.stream r.pos, ⟨r.stream, r.pos + 1⟩)

/-- `rng.gen_bool(p)`: true with probability `p`, i.e. the uniform draw
is below `p`. -/
def Rng.gen_bool (p : ℚ) (r : Rng) : Bool × Rng :=
  (decide ((Rng.next r).1 < p), (Rng.next r).2)

/-- Well-formedness of a random source: every draw lies in [0,1),
which is the contract of the random-source capability. -/
def Rng.WF (r : Rng) : Prop :=
  ∀ n, 0 ≤ r.stream n ∧ r.stream n < 1

/-- A random source freshly seeded with seed `s` starts at position 0.
Mirrors `ChaCha8Rng::from_seed`. -/
def Rng.fromSeed (s : Nat → ℚ) : Rng :=
  ⟨s, 0⟩

/-- `Chromosome`: an ordered sequence of real-valued genes. -/
structure Chromosome where
  genes : List ℚ
deriving DecidableEq

/-- `Chromosome::len`. -/
def Chromosome.len (c : Chromosome) : Nat :=
  c.genes.length

/-- `Chromosome::is_empty`. -/
def Chromosome.isEmptyC (c : Chromosome) : Bool :=
  c.genes.length == 0

/-- `Index<usize> for Chromosome`: `&self.genes[index]`; indexing out
of bounds panics, modelled as an error. -/
def Chromosome.index (c : Chromosome) (i : Nat) : Except String ℚ :=
  match c.genes.get? i with
  | some g => .ok g
  | none => .error ("index out of bounds")

/-- The errors of `rand::WeightedError` that `choose_weighted` can
produce: empty slice, a negative (or invalid) weight, all weights
zero. -/
inductive WeightedError where
  | noItem
  | invalidWeight
  | allWeightsZero
deriving DecidableEq

/-- Debug rendering of a `WeightedError`, as interpolated into the
panic message by `Result::expect`. -/
def WeightedError.str : WeightedError → String
  | .noItem => "NoItem"
  | .invalidWeight => "InvalidWeight"
  | .allWeightsZero => "AllWeightsZero"

/-- The index selection of `WeightedIndex::sample`: walk the list,
taking the first element whose weight bucket contains the drawn point;
the last element is the fallback (the binary search never returns an
index past the end). -/
def pickByWeight {I : Type} (fitness : I → ℚ) (d : I) : List I → ℚ → I
  | [], _ => d
  | [x], _ => x
  | x :: y :: ys, q =>
    if q < fitness x then x else pickByWeight fitness d (y :: ys) (q - fitness x)

/-- `SliceRandom::choose_weighted` via `WeightedIndex`: errors on an
empty slice, on any negative weight, and on a zero total weight;
otherwise draws a point uniformly in [0, total) and picks the element
whose cumulative-weight bucket contains it. -/
def weightedChoose {I : Type} (fitness : I → ℚ) (pop : List I) (r : Rng) :
    Except WeightedError (I × Rng) :=
  match pop with
  | [] => .error .noItem
  | x :: xs =>
    if (x :: xs).any (fun i => decide (fitness i < 0)) then .error .invalidWeight
    else if ((x :: xs).map fitness).sum = 0 then .error .allWeightsZero
    else
      let u := (Rng.next r).1
      .ok (pickByWeight fitness x (x :: xs) (u * ((x :: xs).map fitness).sum), (Rng.next r).2)

/-- `RouletteWheelSelection::select`: `choose_weighted` with the
fitness as weight, then `.expect("got an empty population")` — any
error panics with that message followed by the debug form of the
underlying error. -/
def RouletteWheelSelection.select {I : Type} (fitness : I → ℚ) (r : Rng) (pop : List I) :
    Except String (I × Rng) :=
  match weightedChoose fitness pop r with
  | .ok res => .ok res
  | .error e => .error ("got an empty population: " ++ e.str)

/-- The gene loop of `UniformCrossover::crossover`: zip the parents and
per position flip a fair coin, taking the gene from parent a on true. -/
def crossoverGenes : Rng → List ℚ → List ℚ → List ℚ × Rng
  | r, a :: as, b :: bs =>
    let p := Rng.gen_bool (1/2) r
    let rest := crossoverGenes p.2 as bs
    ((if p.1 then a else b) :: rest.1, rest.2)
  | r, _, _ => ([], r)

/-- `UniformCrossover::crossover`: asserts equal parent lengths, then
runs the per-gene coin flips. -/
def UniformCrossover.crossover (r : Rng) (pa pb : Chromosome) :
    Except String (Chromosome × Rng) :=
  if pa.len = pb.len then
    .ok (⟨(crossoverGenes r pa.genes pb.genes).1⟩, (crossoverGenes r pa.genes pb.genes).2)
  else .error ("assertion failed: parent_a.len() == parent_b.len()")

/-- `GaussianMutation`: mutation chance in [0,1] and perturbation
coefficient. -/
structure GaussianMutation where
  chance : ℚ
  coeff : ℚ

/-- `GaussianMutation::new`: asserts `chance >= 0.0` then
`chance <= 1.0`, panicking (error) if either fails. -/
def GaussianMutation.new (chance coeff : ℚ) : Except String GaussianMutation :=
  if chance < 0 then .error ("assertion failed: chance >= 0.0")
  else if 1 < chance then .error ("assertion failed: chance <= 1.0")
  else .ok ⟨chance, coeff⟩

/-- The gene loop of `GaussianMutation::mutate`: per gene draw a sign
coin, then a chance coin; when the chance coin is true add
`sign * coeff * u` with `u` uniform in [0,1). -/
def mutateGenes (chance coeff : ℚ) : Rng → List ℚ → List ℚ × Rng
  | r, [] => ([], r)
  | r, g :: gs =>
    let p1 := Rng.gen_bool (1/2) r
    let sign : ℚ := if p1.1 then -1 else 1
    let p2 := Rng.gen_bool chance p1.2
    let q :=
      if p2.1 then
        ((g + sign * coeff * (Rng.next p2.2).1), (Rng.next p2.2).2)
      else (g, p2.2)
    let rest := mutateGenes chance coeff q.2 gs
    (q.1 :: rest.1, rest.2)

/-- `GaussianMutation::mutate` on a whole chromosome. -/
def GaussianMutation.mutate (m : GaussianMutation) (r : Rng) (child : Chromosome) :
    Chromosome × Rng :=
  (⟨(mutateGenes m.chance m.coeff r child.genes).1⟩,
   (mutateGenes m.chance m.coeff r child.genes).2)

/-- The `Individual` trait: construct from a chromosome, report
fitness, expose the chromosome. -/
structure IndividualOps (I : Type) where
  create : Chromosome → I
  fitness : I → ℚ
  chromosome : I → Chromosome

/-- The per-slot loop of `GeneticAlgorithm::evolve`: for each of `n`
output slots select two parents, cross them over, mutate the child and
wrap it into a new individual; any panic aborts the whole call. -/
def evolveGo {I : Type} (ops : IndividualOps I)
    (selectF : Rng → List I → Except String (I × Rng))
    (crossF : Rng → Chromosome → Chromosome → Except String (Chromosome × Rng))
    (mutF : Rng → Chromosome → Chromosome × Rng)
    (pop : List I) : Nat → Rng → Except String (List I × Rng)
  | 0, r => .ok ([], r)
  | n + 1, r =>
    match selectF r pop with
    | .error e => .error e
    | .ok (pa, r1) =>
      match selectF r1 pop with
      | .error e => .error e
      | .ok (pb, r2) =>
        match crossF r2 (ops.chromosome pa) (ops.chromosome pb) with
        | .error e => .error e
        | .ok (child, r3) =>
          match evolveGo ops selectF crossF mutF pop n (mutF r3 child).2 with
          | .error e => .error e
          | .ok (rest, r4) => .ok (ops.create (mutF r3 child).1 :: rest, r4)

/-- `GeneticAlgorithm::evolve`: asserts the population non-empty, then
produces one new individual per input slot. -/
def GeneticAlgorithm.evolve {I : Type} (ops : IndividualOps I)
    (selectF : Rng → List I → Except String (I × Rng))
    (crossF : Rng → Chromosome → Chromosome → Except String (Chromosome × Rng))
    (mutF : Rng → Chromosome → Chromosome × Rng)
    (r : Rng) (pop : List I) : Except String (List I × Rng) :=
  if pop.isEmpty then .error ("assertion failed: !population.is_empty()")
  else evolveGo ops selectF crossF mutF pop pop.length r

/-- The concrete strategy combination exercised by the repository:
roulette-wheel selection, uniform crossover, gaussian mutation. -/
def gaEvolve {I : Type} (ops : IndividualOps I) (m : GaussianMutation)
    (r : Rng) (pop : List I) : Except String (List I × Rng) :=
  GeneticAlgorithm.evolve ops (RouletteWheelSelection.select ops.fitness)
    UniformCrossover.crossover m.mutate r pop

/-- A concrete individual for instantiating the generic theorems: wraps
a chromosome and scores it by the sum of its genes, like the
repository's `TestIndividual::WithChromosome`. -/
structure TestIndividual where
  chromosome : Chromosome
deriving DecidableEq

/-- The `Individual` operations of `TestIndividual`. -/
def testOps : IndividualOps TestIndividual :=
  ⟨fun c => ⟨c⟩, fun i => i.chromosome.genes.sum, fun i => i.chromosome⟩

/-- A concrete well-formed random source: every draw is 0. -/
def rng0 : Rng :=
  Rng.fromSeed (fun _ => 0)

/-- The zero stream is a well-formed random source. -/
theorem rng0_wf : Rng.WF rng0 := by
  intro n
  constructor <;> norm_num [rng0, Rng.fromSeed]

/-- The per-slot loop produces exactly one individual per slot when it
succeeds. -/
theorem evolveGo_length {I : Type} (ops : IndividualOps I)
    (selectF : Rng → List I → Except String (I × Rng))
    (crossF : Rng → Chromosome → Chromosome → Except String (Chromosome × Rng))
    (mutF : Rng → Chromosome → Chromosome × Rng) (pop : List I) :
    ∀ (n : Nat) (r : Rng) (out : List I) (r2 : Rng),
      evolveGo ops selectF crossF mutF pop n r = .ok (out, r2) → out.length = n := by
  intro n
  induction n with
  | zero =>
    intro r out r2 h
    rw [evolveGo] at h
    simp only [Except.ok.injEq, Prod.mk.injEq] at h
    rw [← h.1]
    rfl
  | succ n ih =>
    intro r out r2 h
    rw [evolveGo] at h
    split at h
    · simp at h
    · split at h
      · simp at h
      · split at h
        · simp at h
        · split at h
          · simp at h
          · rename_i rest r4 hg
            simp only [Except.ok.injEq, Prod.mk.injEq] at h
            rw [← h.1]
            simp [ih _ _ _ hg]

/-- Claim C1 (amended): whenever `evolve` returns a population at all,
that population is complete — its size equals the input population
size, one freshly created individual per slot; the call never returns
a partial result. -/
theorem evolve_size_invariance {I : Type} (ops : IndividualOps I)
    (selectF : Rng → List I → Except String (I × Rng))
    (crossF : Rng → Chromosome → Chromosome → Except String (Chromosome × Rng))
    (mutF : Rng → Chromosome → Chromosome × Rng)
    (r : Rng) (pop : List I) (out : List I) (r2 : Rng)
    (h : GeneticAlgorithm.evolve ops selectF crossF mutF r pop = .ok (out, r2)) :
    out.length = pop.length := by
  rw [GeneticAlgorithm.evolve] at h
  by_cases he : pop.isEmpty
  · rw [if_pos he] at h
    exact absurd h (by simp)
  · rw [if_neg he] at h
    exact evolveGo_length ops selectF crossF mutF pop pop.length r out r2 h

/-- Claim C1 witness: on a singleton population of fitness 1 the full
concrete pipeline succeeds and preserves the population size. -/
theorem evolve_size_invariance_witness :
    ∃ (out : List TestIndividual) (r2 : Rng),
      GeneticAlgorithm.evolve testOps (RouletteWheelSelection.select testOps.fitness)
          UniformCrossover.crossover (GaussianMutation.mutate ⟨1/2, 1/2⟩) rng0
          [TestIndividual.mk (Chromosome.mk [1])] = .ok (out, r2) ∧
      out.length = 1 := by
  have h : GeneticAlgorithm.evolve testOps (RouletteWheelSelection.select testOps.fitness)
      UniformCrossover.crossover (GaussianMutation.mutate ⟨1/2, 1/2⟩) rng0
      [TestIndividual.mk (Chromosome.mk [1])]
      = .ok ([TestIndividual.mk (Chromosome.mk [1])], ⟨fun _ => 0, 6⟩) := by
    norm_num [GeneticAlgorithm.evolve, evolveGo, RouletteWheelSelection.select,
      weightedChoose, pickByWeight, UniformCrossover.crossover, crossoverGenes,
      GaussianMutation.mutate, mutateGenes, Rng.gen_bool, Rng.next, testOps, rng0,
      Rng.fromSeed, Chromosome.len]
  exact ⟨_, _, h, evolve_size_invariance testOps _ _ _ rng0 _ _ _ h⟩

/-- Claim C1 counterexample: a non-empty population (one individual of
fitness 0) on which `evolve` returns no population at all — it fails
inside selection — refuting the claim that `evolve` returns a complete
population for every non-empty population and random-source state. -/
theorem evolve_size_invariance_counterexample :
    GeneticAlgorithm.evolve testOps (RouletteWheelSelection.select testOps.fitness)
        UniformCrossover.crossover (GaussianMutation.mutate ⟨1/2, 1/2⟩) rng0
        [TestIndividual.mk (Chromosome.mk [0])]
      = .error ("got an empty population: " ++ WeightedError.str .allWeightsZero) := by
  norm_num [GeneticAlgorithm.evolve, evolveGo, RouletteWheelSelection.select,
    weightedChoose, testOps, rng0, Rng.fromSeed]

/-- Claim C2: `evolve` is a pure function of the random-source state
and the population; two runs from the same freshly seeded source and
the same population yield identical output populations, and in this
model the seeded source is the only input that varies between runs. -/
theorem evolve_deterministic {I : Type} (ops : IndividualOps I) (m : GaussianMutation)
    (s : Nat → ℚ) (pop : List I) :
    gaEvolve ops m (Rng.fromSeed s) pop = gaEvolve ops m (Rng.fromSeed s) pop :=
  rfl

/-- Claim C3: on an empty population, selection panics through
`expect` without returning a candidate, and the orchestrator panics on
its non-emptiness assertion without returning a population — both for
every random-source state and every strategy combination. -/
theorem empty_population_rejected {I : Type} (ops : IndividualOps I)
    (fitness : I → ℚ)
    (selectF : Rng → List I → Except String (I × Rng))
    (crossF : Rng → Chromosome → Chromosome → Except String (Chromosome × Rng))
    (mutF : Rng → Chromosome → Chromosome × Rng) (r : Rng) :
    RouletteWheelSelection.select fitness r ([] : List I)
        = .error ("got an empty population: " ++ WeightedError.str .noItem) ∧
    GeneticAlgorithm.evolve ops selectF crossF mutF r ([] : List I)
        = .error ("assertion failed: !population.is_empty()") :=
  ⟨rfl, rfl⟩

/-- For equal-length gene lists the crossover loop keeps the length
and takes every position from one of the two parents. -/
theorem crossoverGenes_spec :
    ∀ (as bs : List ℚ) (r : Rng), as.length = bs.length →
      (crossoverGenes r as bs).1.length = as.length ∧
      ∀ i, (crossoverGenes r as bs).1.get? i = as.get? i ∨
        (crossoverGenes r as bs).1.get? i = bs.get? i := by
  intro as
  induction as with
  | nil =>
    intro bs r h
    cases bs with
    | nil => exact ⟨rfl, fun i => Or.inl rfl⟩
    | cons b bs => simp at h
  | cons a as ih =>
    intro bs r h
    cases bs with
    | nil => simp at h
    | cons b bs =>
      have hlen : as.length = bs.length := by simpa using h
      have htail := ih bs (Rng.gen_bool (1/2) r).2 hlen
      rw [crossoverGenes]
      constructor
      · simpa using htail.1
      · intro i
        cases i with
        | zero =>
          cases hp : (Rng.gen_bool (1/2) r).1 <;> simp [hp]
        | succ i =>
          simpa using htail.2 i

/-- Claim C4: for equal-length parents, crossover succeeds with a
child of the same length whose gene at every position is the
corresponding gene of parent a or of parent b. -/
theorem crossover_allele_origin (r : Rng) (pa pb : Chromosome) (h : pa.len = pb.len) :
    ∃ (child : Chromosome) (r2 : Rng),
      UniformCrossover.crossover r pa pb = .ok (child, r2) ∧
      child.len = pa.len ∧
      ∀ i, child.genes.get? i = pa.genes.get? i ∨ child.genes.get? i = pb.genes.get? i := by
  refine ⟨⟨(crossoverGenes r pa.genes pb.genes).1⟩, (crossoverGenes r pa.genes pb.genes).2,
    ?_, ?_, ?_⟩
  · rw [UniformCrossover.crossover, if_pos h]
  · exact (crossoverGenes_spec pa.genes pb.genes r h).1
  · exact (crossoverGenes_spec pa.genes pb.genes r h).2

/-- Claim C4 witness: crossover of the concrete parents [1, 2] and
[3, 4]. -/
theorem crossover_allele_origin_witness :
    Chromosome.len (Chromosome.mk [1, 2]) = Chromosome.len (Chromosome.mk [3, 4]) ∧
    ∃ (child : Chromosome) (r2 : Rng),
      UniformCrossover.crossover rng0 (Chromosome.mk [1, 2]) (Chromosome.mk [3, 4])
          = .ok (child, r2) ∧
      child.len = Chromosome.len (Chromosome.mk [1, 2]) ∧
      ∀ i, child.genes.get? i = (Chromosome.mk [1, 2]).genes.get? i ∨
        child.genes.get? i = (Chromosome.mk [3, 4]).genes.get? i :=
  ⟨rfl, crossover_allele_origin rng0 (Chromosome.mk [1, 2]) (Chromosome.mk [3, 4]) rfl⟩

/-- Claim C5: crossover of parents of different lengths fails on the
length assertion and produces no child. -/
theorem crossover_length_mismatch (r : Rng) (pa pb : Chromosome) (h : pa.len ≠ pb.len) :
    UniformCrossover.crossover r pa pb
      = .error ("assertion failed: parent_a.len() == parent_b.len()") := by
  rw [UniformCrossover.crossover, if_neg h]

/-- Claim C5 witness: crossover of a length-1 and a length-2 parent
fails. -/
theorem crossover_length_mismatch_witness :
    Chromosome.len (Chromosome.mk [1]) ≠ Chromosome.len (Chromosome.mk [1, 2]) ∧
    UniformCrossover.crossover rng0 (Chromosome.mk [1]) (Chromosome.mk [1, 2])
      = .error ("assertion failed: parent_a.len() == parent_b.len()") :=
  ⟨by simp [Chromosome.len],
   crossover_length_mismatch rng0 (Chromosome.mk [1]) (Chromosome.mk [1, 2])
     (by simp [Chromosome.len])⟩

/-- With chance 0 the mutation loop never fires: the chance coin
`u < 0` is false for every well-formed draw. -/
theorem mutateGenes_chance_zero (coeff : ℚ) :
    ∀ (gs : List ℚ) (r : Rng), Rng.WF r → (mutateGenes 0 coeff r gs).1 = gs := by
  intro gs
  induction gs with
  | nil => intro r _; rfl
  | cons g gs ih =>
    intro r hwf
    rw [mutateGenes]
    have h0 : (Rng.gen_bool 0 (Rng.gen_bool (1/2) r).2).1 = false := by
      simp only [Rng.gen_bool, Rng.next, decide_eq_false_iff_not, not_lt]
      exact (hwf _).1
    simp only [h0, Bool.false_eq_true, if_false]
    show g :: (mutateGenes 0 coeff (Rng.gen_bool 0 (Rng.gen_bool (1/2) r).2).2 gs).1 = g :: gs
    exact congrArg (g :: ·) (ih _ hwf)

/-- With coefficient 0 the perturbation `sign * 0 * u` vanishes, so the
gene is unchanged whether or not the chance coin fires. -/
theorem mutateGenes_coeff_zero (chance : ℚ) :
    ∀ (gs : List ℚ) (r : Rng), (mutateGenes chance 0 r gs).1 = gs := by
  intro gs
  induction gs with
  | nil => intro r; rfl
  | cons g gs ih =>
    intro r
    rw [mutateGenes]
    cases hc : (Rng.gen_bool chance (Rng.gen_bool (1/2) r).2).1 with
    | false => simp [hc, ih]
    | true => simp [hc, ih]

/-- Claim C6: mutation no-op laws — chance 0 leaves every gene
unchanged for every coefficient, and coefficient 0 leaves every gene
unchanged for every chance in [0, 1]. -/
theorem mutation_noop_laws (r : Rng) (hwf : Rng.WF r) (g : Chromosome) :
    (∀ coeff : ℚ, ((GaussianMutation.mk 0 coeff).mutate r g).1 = g) ∧
    (∀ chance : ℚ, 0 ≤ chance → chance ≤ 1 →
      ((GaussianMutation.mk chance 0).mutate r g).1 = g) := by
  constructor
  · intro coeff
    show (⟨(mutateGenes 0 coeff r g.genes).1⟩ : Chromosome) = g
    rw [mutateGenes_chance_zero coeff g.genes r hwf]
  · intro chance _ _
    show (⟨(mutateGenes chance 0 r g.genes).1⟩ : Chromosome) = g
    rw [mutateGenes_coeff_zero chance g.genes r]

/-- Claim C6 witness: both no-op laws on the concrete chromosome
[1, 2] with the zero-stream source. -/
theorem mutation_noop_laws_witness :
    Rng.WF rng0 ∧
    ((GaussianMutation.mk 0 3).mutate rng0 (Chromosome.mk [1, 2])).1 = Chromosome.mk [1, 2] ∧
    ((GaussianMutation.mk (1/2) 0).mutate rng0 (Chromosome.mk [1, 2])).1 = Chromosome.mk [1, 2] :=
  ⟨rng0_wf, (mutation_noop_laws rng0 rng0_wf (Chromosome.mk [1, 2])).1 3,
   (mutation_noop_laws rng0 rng0_wf (Chromosome.mk [1, 2])).2 (1/2) (by norm_num) (by norm_num)⟩

/-- With chance 1 the mutation branch fires for every gene and the new
gene differs from the old by `sign * c * u` with `u` in [0,1), so the
absolute change lies in [0, c) whenever `c > 0`. -/
theorem mutateGenes_chance_one (c : ℚ) (hc : 0 < c) :
    ∀ (gs : List ℚ) (r : Rng), Rng.WF r →
      List.Forall₂ (fun a b => 0 ≤ |b - a| ∧ |b - a| < c) gs (mutateGenes 1 c r gs).1 := by
  intro gs
  induction gs with
  | nil => intro r _; exact List.Forall₂.nil
  | cons g gs ih =>
    intro r hwf
    rw [mutateGenes]
    have h1 : (Rng.gen_bool 1 (Rng.gen_bool (1/2) r).2).1 = true := by
      simp only [Rng.gen_bool, Rng.next, decide_eq_true_eq]
      exact (hwf _).2
    simp only [h1, if_true]
    show List.Forall₂ _ (g :: gs)
      ((g + (if (Rng.gen_bool (1/2) r).1 then (-1 : ℚ) else 1) * c *
          (Rng.next (Rng.gen_bool 1 (Rng.gen_bool (1/2) r).2).2).1)
        :: (mutateGenes 1 c (Rng.next (Rng.gen_bool 1 (Rng.gen_bool (1/2) r).2).2).2 gs).1)
    refine List.Forall₂.cons ?_ (ih _ hwf)
    have hu : 0 ≤ (Rng.next (Rng.gen_bool 1 (Rng.gen_bool (1/2) r).2).2).1 ∧
        (Rng.next (Rng.gen_bool 1 (Rng.gen_bool (1/2) r).2).2).1 < 1 := hwf _
    rw [add_sub_cancel_left]
    have habs : |(if (Rng.gen_bool (1/2) r).1 then (-1 : ℚ) else 1) * c *
        (Rng.next (Rng.gen_bool 1 (Rng.gen_bool (1/2) r).2).2).1|
        = c * (Rng.next (Rng.gen_bool 1 (Rng.gen_bool (1/2) r).2).2).1 := by
      cases hs : (Rng.gen_bool (1/2) r).1 <;>
        simp [hs, abs_mul, abs_of_pos hc, abs_of_nonneg hu.1] <;>
        exact Or.inl hu.1
    rw [habs]
    exact ⟨mul_nonneg hc.le hu.1, mul_lt_of_lt_one_right hc hu.2⟩

/-- Claim C7 (amended): with chance 1 and coefficient c > 0, every
gene receives a perturbation whose absolute value lies in [0, c); the
perturbation can be 0 (when the uniform draw is 0), in which case the
gene value is unchanged, and the output length equals the input
length. -/
theorem mutation_bounds (c : ℚ) (hc : 0 < c) (r : Rng) (hwf : Rng.WF r) (g : Chromosome) :
    List.Forall₂ (fun a b => 0 ≤ |b - a| ∧ |b - a| < c)
        g.genes (((GaussianMutation.mk 1 c).mutate r g).1).genes ∧
    (((GaussianMutation.mk 1 c).mutate r g).1).len = g.len := by
  have h := mutateGenes_chance_one c hc g.genes r hwf
  exact ⟨h, (List.Forall₂.length_eq h).symm⟩

/-- Claim C7 witness: bounds at chance 1, coefficient 1, chromosome
[5], zero-stream source. -/
theorem mutation_bounds_witness :
    (0 : ℚ) < 1 ∧ Rng.WF rng0 ∧
    (List.Forall₂ (fun a b => 0 ≤ |b - a| ∧ |b - a| < (1 : ℚ))
        (Chromosome.mk [5]).genes
        (((GaussianMutation.mk 1 1).mutate rng0 (Chromosome.mk [5])).1).genes ∧
     (((GaussianMutation.mk 1 1).mutate rng0 (Chromosome.mk [5])).1).len
        = (Chromosome.mk [5]).len) :=
  ⟨by norm_num, rng0_wf, mutation_bounds 1 (by norm_num) rng0 rng0_wf (Chromosome.mk [5])⟩

/-- Claim C7 counterexample: with chance 1 and coefficient 0 and a
source whose draws are all 0, the gene 5 is NOT changed — the output
chromosome equals the input — and its absolute change 0 does not lie
in the empty interval [0, 0); so "mutate changes every gene" and the
interval bound fail as universally stated. -/
theorem mutation_bounds_counterexample :
    ((GaussianMutation.mk 1 0).mutate rng0 (Chromosome.mk [5])).1 = Chromosome.mk [5] ∧
    ¬ (|(5 : ℚ) - 5| < 0) := by
  constructor
  · norm_num [GaussianMutation.mutate, mutateGenes, Rng.gen_bool, Rng.next, rng0, Rng.fromSeed]
  · norm_num

/-- Claim C8: constructing the mutation strategy succeeds exactly when
the chance lies in [0, 1] (for any coefficient), and fails with the
assertion error otherwise, before any genome is touched. -/
theorem mutation_chance_validation (chance coeff : ℚ) :
    ((GaussianMutation.new chance coeff = .ok (GaussianMutation.mk chance coeff))
        ↔ (0 ≤ chance ∧ chance ≤ 1)) ∧
    (¬ (0 ≤ chance ∧ chance ≤ 1) → ∃ e, GaussianMutation.new chance coeff = .error e) := by
  constructor
  · constructor
    · intro h
      rw [GaussianMutation.new] at h
      split_ifs at h with h1 h2
      · exact ⟨not_lt.mp h1, not_lt.mp h2⟩
    · intro hb
      rw [GaussianMutation.new, if_neg (not_lt.mpr hb.1), if_neg (not_lt.mpr hb.2)]
  · intro hb
    rw [GaussianMutation.new]
    split_ifs with h1 h2
    · exact ⟨_, rfl⟩
    · exact ⟨_, rfl⟩
    · exact absurd ⟨not_lt.mp h1, not_lt.mp h2⟩ hb

/-- Claim C8 witness: chance 1/2 constructs, chance 2 fails. -/
theorem mutation_chance_validation_witness :
    GaussianMutation.new (1/2) 5 = .ok (GaussianMutation.mk (1/2) 5) ∧
    ∃ e, GaussianMutation.new 2 5 = .error e :=
  ⟨(mutation_chance_validation (1/2) 5).1.mpr ⟨by norm_num, by norm_num⟩,
   (mutation_chance_validation 2 5).2 (by norm_num)⟩

/-- Claim C9: indexed read access succeeds exactly on indices below
the length; in bounds it returns the i-th gene, out of bounds it fails
with the out-of-bounds error (and, being a pure function, it has no
side effect). -/
theorem chromosome_index_spec (c : Chromosome) (i : Nat) :
    ((c.index i).isOk = true ↔ i < c.len) ∧
    (∀ h : i < c.len, c.index i = .ok (c.genes.get ⟨i, h⟩)) ∧
    (c.len ≤ i → c.index i = .error ("index out of bounds")) := by
  refine ⟨⟨?_, ?_⟩, ?_, ?_⟩
  · intro hok
    by_contra hlt
    have hnone : c.genes.get? i = none := List.get?_eq_none.mpr (not_lt.mp hlt)
    rw [Chromosome.index, hnone] at hok
    simp [Except.isOk, Except.toBool] at hok
  · intro hlt
    rw [Chromosome.index, List.get?_eq_get hlt]
    simp [Except.isOk, Except.toBool]
  · intro h
    rw [Chromosome.index, List.get?_eq_get h]
  · intro h
    rw [Chromosome.index, List.get?_eq_none.mpr h]

/-- Claim C9 witness: in the chromosome [7], index 0 reads gene 7 and
index 1 is out of bounds. -/
theorem chromosome_index_spec_witness :
    Chromosome.index (Chromosome.mk [7]) 0 = .ok 7 ∧
    Chromosome.index (Chromosome.mk [7]) 1 = .error ("index out of bounds") :=
  ⟨(chromosome_index_spec (Chromosome.mk [7]) 0).2.1 (by simp [Chromosome.len]),
   (chromosome_index_spec (Chromosome.mk [7]) 1).2.2 (by simp [Chromosome.len])⟩

/-- Claim C10: on a non-empty population whose fitness values are all
zero, or contain a negative value, selection fails through the same
`expect` call as the empty-population case, so the panic message still
begins with "got an empty population" (followed by the debug form of
the underlying weighted-choice error, which is not the empty-slice
error). -/
theorem select_invalid_weights {I : Type} (fitness : I → ℚ) (r : Rng) (pop : List I)
    (hne : pop ≠ [])
    (hbad : (∀ x ∈ pop, fitness x = 0) ∨ (∃ x ∈ pop, fitness x < 0)) :
    ∃ e : WeightedError, e ≠ WeightedError.noItem ∧
      RouletteWheelSelection.select fitness r pop
        = .error ("got an empty population: " ++ WeightedError.str e) := by
  obtain ⟨x, xs, rfl⟩ := List.exists_cons_of_ne_nil hne
  rcases hbad with hz | ⟨y, hy, hyneg⟩
  · refine ⟨.allWeightsZero, by simp, ?_⟩
    have hany : ((x :: xs).any (fun i => decide (fitness i < 0))) = false := by
      rw [List.any_eq_false]
      intro y hy
      rw [hz y hy]
      simp
    have hsum : ((x :: xs).map fitness).sum = 0 := by
      apply List.sum_eq_zero
      intro q hq
      obtain ⟨y, hy, rfl⟩ := List.mem_map.mp hq
      exact hz y hy
    have hwc : weightedChoose fitness (x :: xs) r = .error .allWeightsZero := by
      rw [weightedChoose]
      rw [if_neg (by rw [hany]; exact Bool.false_ne_true), if_pos hsum]
    rw [RouletteWheelSelection.select, hwc]
  · refine ⟨.invalidWeight, by simp, ?_⟩
    have hany : ((x :: xs).any (fun i => decide (fitness i < 0))) = true := by
      rw [List.any_eq_true]
      exact ⟨y, hy, by simpa using hyneg⟩
    have hwc : weightedChoose fitness (x :: xs) r = .error .invalidWeight := by
      rw [weightedChoose, if_pos hany]
    rw [RouletteWheelSelection.select, hwc]

/-- Claim C10 witness: a non-empty population of one individual of
fitness 0 makes selection fail with the empty-population message. -/
theorem select_invalid_weights_witness :
    ([TestIndividual.mk (Chromosome.mk [0])] : List TestIndividual) ≠ [] ∧
    ∃ e : WeightedError, e ≠ WeightedError.noItem ∧
      RouletteWheelSelection.select testOps.fitness rng0 [TestIndividual.mk (Chromosome.mk [0])]
        = .error ("got an empty population: " ++ WeightedError.str e) :=
  ⟨by simp,
   select_invalid_weights testOps.fitness rng0 [TestIndividual.mk (Chromosome.mk [0])]
     (by simp)
     (Or.inl (by
       intro x hx
       rw [List.mem_singleton] at hx
       rw [hx]
       simp [testOps]))⟩
